import Mathlib

/-!
Verification of the rank-grouped extensible menu implementation
(packages/mainmenu/src/menus.ts) against its natural-language specification.

The development shallowly embeds the pure content of the TypeScript code:
a menu is a record of the fixed-item count `startIndex`, the flat visible
item list (the phosphor Menu item array as mutated by `insertItem`), and the
internal rank-group list.  Phosphor library helpers (`ArrayExt.upperBound`,
`ArrayExt.insert`, `Menu.insertItem`) are embedded by their documented
behaviour: `upperBound` returns the first index whose element compares
strictly greater than the probe, and `insertItem`/`insert` clamp the index
into the interval from 0 to the current length.
-/

/-- A menu item descriptor (phosphor Menu.IItemOptions), discriminated only
as far as this code needs: a command reference, a separator, or a submenu. -/
inductive MenuItem where
  | command (cmd : String)
  | separator
  | submenu (label : String)
deriving DecidableEq, Repr

/-- Private.IRankGroup: a contributed batch of items together with its sort
rank.  The TypeScript rank is a number; contributed ranks are integers, so it
is embedded as Int. -/
structure RankGroup where
  items : List MenuItem
  rank : Int
deriving DecidableEq, Repr

/-- Private.itemCmp: comparator on rank groups, first.rank - second.rank. -/
def itemCmp (first second : RankGroup) : Int :=
  first.rank - second.rank

/-- ArrayExt.upperBound specialised to itemCmp: the index of the first
element of the array that compares strictly greater than the value.  (The
phosphor binary search returns exactly this index on the sorted arrays this
code maintains.) -/
def upperBound : List RankGroup → RankGroup → Nat
  | [], _ => 0
  | g :: rest, x => if 0 < itemCmp g x then 0 else upperBound rest x + 1

/-- Index-clamping insertion, the behaviour shared by ArrayExt.insert and
phosphor Menu.insertItem for nonnegative indices: the index is clamped to
the current length, so an out-of-range insert appends. -/
def insertClamped (l : List α) (i : Nat) (a : α) : List α :=
  l.take (min i l.length) ++ a :: l.drop (min i l.length)

/-- The JupyterLabMenu state: the protected startIndex, the flat phosphor
item list, and the private group list. -/
structure JupyterLabMenu where
  startIndex : Nat
  flatItems : List MenuItem
  groups : List RankGroup
deriving DecidableEq, Repr

/-- The loop of addGroup that determines the flat insertion index:
starting from startIndex, for each of the groupIndex preceding positions it
adds the total group count plus one (numGroups is the length of the group
list after the new group has been inserted, which is what the loop body
reads). -/
def computeInsertIndex (startIndex groupIndex numGroups : Nat) : Nat :=
  List.foldl (fun acc _ => if 0 < numGroups then acc + (numGroups + 1) else acc)
    startIndex (List.range groupIndex)

/-- The item-insertion loop of addGroup: each item is inserted by
Menu.insertItem (index clamped) and the index is then incremented. -/
def insertItems (flat : List MenuItem) (idx : Nat) : List MenuItem → List MenuItem
  | [] => flat
  | it :: rest => insertItems (insertClamped flat idx it) (idx + 1) rest

/-- JupyterLabMenu.addGroup(items, rank?): build the rank group (rank
defaults to 100), insert it into the group list at the upper-bound position,
compute the flat insertion index, insert a separator there if the index is
positive, then insert the items. -/
def addGroup (m : JupyterLabMenu) (items : List MenuItem) (rank : Option Int) :
    JupyterLabMenu :=
  let rankGroup : RankGroup := { items := items, rank := rank.getD 100 }
  let groupIndex := upperBound m.groups rankGroup
  let groups := insertClamped m.groups groupIndex rankGroup
  let insertIndex := computeInsertIndex m.startIndex groupIndex groups.length
  let flat :=
    if 0 < insertIndex then
      insertItems (insertClamped m.flatItems insertIndex MenuItem.separator)
        (insertIndex + 1) items
    else
      insertItems m.flatItems insertIndex items
  { m with flatItems := flat, groups := groups }

/-- Menu.addItem: append one item to the flat list (insertItem at length). -/
def addItem (m : JupyterLabMenu) (item : MenuItem) : JupyterLabMenu :=
  { m with flatItems := m.flatItems ++ [item] }

/-- A freshly constructed JupyterLabMenu: startIndex 0, no items, no
groups. -/
def emptyMenu : JupyterLabMenu :=
  { startIndex := 0, flatItems := [], groups := [] }

/-- The group index addGroup computes for a call on menu m. -/
def addGroupGroupIndex (m : JupyterLabMenu) (items : List MenuItem)
    (rank : Option Int) : Nat :=
  upperBound m.groups { items := items, rank := rank.getD 100 }

/-- The flat insertion index addGroup computes for a call on menu m (the
group-list length read by the loop is the length after insertion, which is
the old length plus one). -/
def addGroupInsertIndex (m : JupyterLabMenu) (items : List MenuItem)
    (rank : Option Int) : Nat :=
  computeInsertIndex m.startIndex (addGroupGroupIndex m items rank)
    (m.groups.length + 1)

/-- The insertion offset exactly as the specification words it: start at
startIndex, then for every group preceding the new group advance by that
group's own item count plus one (for its separator).  Written from the
spec, to be compared with computeInsertIndex, the rule the code applies. -/
def specInsertIndex (startIndex : Nat) (preceding : List RankGroup) : Nat :=
  List.foldl (fun acc g => acc + (g.items.length + 1)) startIndex preceding

namespace CommandIDs

def interruptKernel : String := "kernel:interrupt"

def restartKernel : String := "kernel:restart"

def changeKernel : String := "kernel:change"

end CommandIDs

/-- The KernelMenu state right after construction: the base constructor sets
startIndex to 0, then the three generated kernel commands are appended with
addItem.  startIndex is never updated. -/
def kernelMenuSeed : JupyterLabMenu :=
  addItem (addItem (addItem emptyMenu (MenuItem.command CommandIDs.interruptKernel))
    (MenuItem.command CommandIDs.restartKernel))
    (MenuItem.command CommandIDs.changeKernel)

/-- Modelled from the spec: the IMainMenu.IKernelMenu.IKernelUser interface
is declared in mainmenu.ts, which is not among the provided sources.  Per
the specification (section 3, KernelUser binding) it is a tracker capability
query over widgets plus three optional delegate functions; an absent
delegate is the undefined TypeScript field. -/
structure KernelUser (W R : Type) where
  tracker : W → Bool
  interruptKernel : Option (W → R)
  restartKernel : Option (W → R)
  changeKernel : Option (W → R)

/-- The outcome of running one of the generated execute closures: either
the delegate's value, or the TypeError the JavaScript runtime raises when a
property of undefined is read or undefined is called (the non-null
assertion in the source is erased at runtime and does not guard). -/
inductive JsOutcome (R : Type) where
  | ok (value : R)
  | typeError
deriving DecidableEq, Repr

/-- KernelMenu._findUser: undefined when no widget is focused, otherwise
the first registered user whose tracker has the widget
(ArrayExt.findFirstValue is first-match search). -/
def findUser (users : List (KernelUser W R)) (widget : Option W) :
    Option (KernelUser W R) :=
  match widget with
  | none => none
  | some w => users.find? fun u => u.tracker w

/-- The isEnabled closure of kernel:interrupt: a user is found for the
current widget and it supplies the interruptKernel delegate. -/
def interruptIsEnabled (users : List (KernelUser W R)) (focused : Option W) : Bool :=
  match findUser users focused with
  | some user => user.interruptKernel.isSome
  | none => false

/-- The isEnabled closure of kernel:restart. -/
def restartIsEnabled (users : List (KernelUser W R)) (focused : Option W) : Bool :=
  match findUser users focused with
  | some user => user.restartKernel.isSome
  | none => false

/-- The isEnabled closure of kernel:change. -/
def changeIsEnabled (users : List (KernelUser W R)) (focused : Option W) : Bool :=
  match findUser users focused with
  | some user => user.changeKernel.isSome
  | none => false

/-- The execute closure of kernel:interrupt: read the current widget, find
its user, and call user!.interruptKernel(widget).  When no user is found
(including when no widget is focused), or the found user has no
interruptKernel delegate, the call raises a TypeError. -/
def interruptExecute (users : List (KernelUser W R)) (focused : Option W) :
    JsOutcome R :=
  match focused, findUser users focused with
  | some w, some user =>
    match user.interruptKernel with
    | some f => JsOutcome.ok (f w)
    | none => JsOutcome.typeError
  | _, _ => JsOutcome.typeError

/-- The execute closure of kernel:restart. -/
def restartExecute (users : List (KernelUser W R)) (focused : Option W) :
    JsOutcome R :=
  match focused, findUser users focused with
  | some w, some user =>
    match user.restartKernel with
    | some f => JsOutcome.ok (f w)
    | none => JsOutcome.typeError
  | _, _ => JsOutcome.typeError

/-- The execute closure of kernel:change. -/
def changeExecute (users : List (KernelUser W R)) (focused : Option W) :
    JsOutcome R :=
  match focused, findUser users focused with
  | some w, some user =>
    match user.changeKernel with
    | some f => JsOutcome.ok (f w)
    | none => JsOutcome.typeError
  | _, _ => JsOutcome.typeError

/-- A sample menu holding two empty groups of ranks 10 and 20, used to
instantiate general theorems at a concrete input. -/
def twoGroupsMenu : JupyterLabMenu :=
  { startIndex := 0, flatItems := [],
    groups := [{ items := [], rank := 10 }, { items := [], rank := 20 }] }

/-- A sample kernel user over Nat widgets whose tracker owns every widget
and that supplies all three delegates. -/
def fullUser : KernelUser Nat Nat :=
  { tracker := fun _ => true,
    interruptKernel := some fun n => n + 1,
    restartKernel := some fun n => n + 2,
    changeKernel := some fun n => n + 3 }

/-- A sample kernel user whose tracker owns every widget but that supplies
none of the three delegates. -/
def noDelegateUser : KernelUser Nat Nat :=
  { tracker := fun _ => true,
    interruptKernel := none,
    restartKernel := none,
    changeKernel := none }

/-! ## Helper lemmas about the insertion primitives -/

theorem insertClamped_length (l : List α) (i : Nat) (a : α) :
    (insertClamped l i a).length = l.length + 1 := by
  simp [insertClamped]
  omega

theorem insertClamped_take_succ (l : List α) (i : Nat) (a : α) :
    (insertClamped l i a).take (min i l.length + 1) =
      l.take (min i l.length) ++ [a] := by
  have hlen : (l.take (min i l.length)).length = min i l.length := by
    rw [List.length_take]
    omega
  simp [insertClamped, List.take_append_eq_append_take, hlen]

theorem insertClamped_drop_succ (l : List α) (i : Nat) (a : α) :
    (insertClamped l i a).drop (min i l.length + 1) =
      l.drop (min i l.length) := by
  have hlen : (l.take (min i l.length)).length = min i l.length := by
    rw [List.length_take]
    omega
  simp [insertClamped, List.drop_append_eq_append_drop, hlen]

theorem insertItems_eq (items : List MenuItem) (flat : List MenuItem) (idx : Nat) :
    insertItems flat idx items =
      flat.take (min idx flat.length) ++ items ++ flat.drop (min idx flat.length) := by
  induction items generalizing flat idx with
  | nil => simp [insertItems]
  | cons it rest ih =>
    rw [insertItems, ih]
    have hmin : min (idx + 1) ((insertClamped flat idx it).length) =
        min idx flat.length + 1 := by
      rw [insertClamped_length]
      omega
    rw [hmin, insertClamped_take_succ, insertClamped_drop_succ]
    simp

/-- The net effect of one addGroup call on the flat item list: writing idx
for the computed insertion index and l for idx clamped to the current
length, the call splices (separator if idx is positive) ++ items into the
flat list at position l. -/
theorem addGroup_flatItems (m : JupyterLabMenu) (items : List MenuItem)
    (rank : Option Int) :
    (addGroup m items rank).flatItems =
      m.flatItems.take (min (addGroupInsertIndex m items rank) m.flatItems.length)
        ++ (if 0 < addGroupInsertIndex m items rank then [MenuItem.separator] else [])
        ++ items
        ++ m.flatItems.drop (min (addGroupInsertIndex m items rank) m.flatItems.length) := by
  have hidx : computeInsertIndex m.startIndex
      (upperBound m.groups { items := items, rank := rank.getD 100 })
      (m.groups.length + 1) = addGroupInsertIndex m items rank := rfl
  show (if 0 < computeInsertIndex m.startIndex (upperBound m.groups _)
          (insertClamped m.groups (upperBound m.groups _) _).length then _ else _) = _
  rw [insertClamped_length, hidx]
  by_cases h : 0 < addGroupInsertIndex m items rank
  · rw [if_pos h, if_pos h, insertItems_eq]
    have hmin : min (addGroupInsertIndex m items rank + 1)
        ((insertClamped m.flatItems (addGroupInsertIndex m items rank)
          MenuItem.separator).length) =
        min (addGroupInsertIndex m items rank) m.flatItems.length + 1 := by
      rw [insertClamped_length]
      omega
    rw [hmin, insertClamped_take_succ, insertClamped_drop_succ]
  · rw [if_neg h, if_neg h]
    have h0 : addGroupInsertIndex m items rank = 0 := by omega
    rw [insertItems_eq, h0]
    simp

/-- addGroup leaves startIndex unchanged and inserts the new rank group at
the upper-bound position of the group list. -/
theorem addGroup_groups (m : JupyterLabMenu) (items : List MenuItem)
    (rank : Option Int) :
    (addGroup m items rank).startIndex = m.startIndex ∧
    (addGroup m items rank).groups =
      insertClamped m.groups (addGroupGroupIndex m items rank)
        { items := items, rank := rank.getD 100 } :=
  ⟨rfl, rfl⟩

/-! ## Helper lemmas about the upper-bound search on the group list -/

theorem upperBound_le_length (groups : List RankGroup) (g : RankGroup) :
    upperBound groups g ≤ groups.length := by
  induction groups with
  | nil => exact Nat.le_refl 0
  | cons hd tl ih =>
    rw [upperBound]
    split
    · exact Nat.zero_le _
    · exact Nat.succ_le_succ ih

/-- Every group strictly before the upper-bound position has rank at most
the probe's rank (this needs no sortedness assumption: the scan stops at
the first strictly greater rank). -/
theorem rank_le_of_mem_take_upperBound (groups : List RankGroup) (g : RankGroup) :
    ∀ h ∈ groups.take (upperBound groups g), h.rank ≤ g.rank := by
  induction groups with
  | nil => intro h hmem; simp at hmem
  | cons hd tl ih =>
    rw [upperBound]
    split
    · intro h hmem; simp at hmem
    · rename_i hcond
      intro h hmem
      rw [List.take_succ_cons] at hmem
      rcases List.mem_cons.mp hmem with heq | hmem
      · subst heq
        simp [itemCmp] at hcond
        omega
      · exact ih h hmem

/-- On a rank-sorted group list, every group at or after the upper-bound
position has rank strictly greater than the probe's rank. -/
theorem rank_lt_of_mem_drop_upperBound (groups : List RankGroup) (g : RankGroup)
    (hs : List.Sorted (fun a b : RankGroup => a.rank ≤ b.rank) groups) :
    ∀ h ∈ groups.drop (upperBound groups g), g.rank < h.rank := by
  induction groups with
  | nil => intro h hmem; simp at hmem
  | cons hd tl ih =>
    rw [List.sorted_cons] at hs
    rw [upperBound]
    split
    · rename_i hcond
      intro h hmem
      rw [List.drop_zero] at hmem
      rcases List.mem_cons.mp hmem with heq | hmem
      · subst heq
        simp [itemCmp] at hcond
        omega
      · have hle := hs.1 h hmem
        simp [itemCmp] at hcond
        omega
    · intro h hmem
      rw [List.drop_succ_cons] at hmem
      exact ih hs.2 h hmem

/-- Because the upper-bound index never exceeds the list length, the
clamped insert there is a plain positional insert. -/
theorem insertClamped_upperBound_eq (groups : List RankGroup) (g : RankGroup) :
    insertClamped groups (upperBound groups g) g =
      groups.take (upperBound groups g) ++ g :: groups.drop (upperBound groups g) := by
  have hub := upperBound_le_length groups g
  have hmin : min (upperBound groups g) groups.length = upperBound groups g :=
    Nat.min_eq_left hub
  rw [insertClamped, hmin]

/-- Inserting at the upper-bound position preserves rank-sortedness of the
group list. -/
theorem insertClamped_upperBound_sorted (groups : List RankGroup) (g : RankGroup)
    (hs : List.Sorted (fun a b : RankGroup => a.rank ≤ b.rank) groups) :
    List.Sorted (fun a b : RankGroup => a.rank ≤ b.rank)
      (insertClamped groups (upperBound groups g) g) := by
  have htake := rank_le_of_mem_take_upperBound groups g
  have hdrop := rank_lt_of_mem_drop_upperBound groups g hs
  rw [insertClamped_upperBound_eq]
  show List.Pairwise _ _
  rw [List.pairwise_append]
  refine ⟨List.Pairwise.sublist (List.take_sublist _ _) hs, ?_, ?_⟩
  · rw [List.pairwise_cons]
    exact ⟨fun b hb => le_of_lt (hdrop b hb),
      List.Pairwise.sublist (List.drop_sublist _ _) hs⟩
  · intro a ha b hb
    rcases List.mem_cons.mp hb with heq | hb
    · subst heq
      exact htake a ha
    · exact le_of_lt (lt_of_le_of_lt (htake a ha) (hdrop b hb))

/-! ## Claim theorems -/

/-- Claim C1 (code bug): rank ordering of the flat items is the evident
intent of addGroup, but the insertion-offset loop adds the total group
count plus one per preceding group instead of each preceding group's item
count plus one, so it computes a wrong flat position.  At the input
addGroup([a,b],50); addGroup([c,d],10); addGroup([e],30) the item e of the
rank-30 group lands at flat index 5, after the rank-50 items a and b at
indices 2 and 3, even though the group list itself is correctly rank
sorted. -/
theorem C1_rank_ordering_code_bug :
    (addGroup (addGroup (addGroup emptyMenu
        [MenuItem.command "a", MenuItem.command "b"] (some 50))
        [MenuItem.command "c", MenuItem.command "d"] (some 10))
        [MenuItem.command "e"] (some 30)).flatItems =
      [MenuItem.command "c", MenuItem.command "d", MenuItem.command "a",
        MenuItem.command "b", MenuItem.separator, MenuItem.command "e"] ∧
    (addGroup (addGroup (addGroup emptyMenu
        [MenuItem.command "a", MenuItem.command "b"] (some 50))
        [MenuItem.command "c", MenuItem.command "d"] (some 10))
        [MenuItem.command "e"] (some 30)).groups =
      [{ items := [MenuItem.command "c", MenuItem.command "d"], rank := 10 },
        { items := [MenuItem.command "e"], rank := 30 },
        { items := [MenuItem.command "a", MenuItem.command "b"], rank := 50 }] := by
  decide

/-- Claim C2 (code bug): the specified insertion point is startIndex plus,
per preceding group, that group's item count plus one; the code instead
adds the post-insertion total group count plus one per preceding group.
On the menu holding one group of one item at rank 10, adding a one-item
group at rank 20 makes the code compute index 3 while the specified rule
gives 2. -/
theorem C2_insert_offset_code_bug :
    addGroupInsertIndex (addGroup emptyMenu [MenuItem.command "a"] (some 10))
        [MenuItem.command "b"] (some 20) = 3 ∧
    specInsertIndex
        (addGroup emptyMenu [MenuItem.command "a"] (some 10)).startIndex
        ((addGroup emptyMenu [MenuItem.command "a"] (some 10)).groups.take
          (addGroupGroupIndex (addGroup emptyMenu [MenuItem.command "a"] (some 10))
            [MenuItem.command "b"] (some 20))) = 2 := by
  decide

/-- Claim C3 (counterexample): Scenario A does not produce
[c, separator, a, b]: the second call inserts at flat index 0, so no
separator is inserted at all. -/
theorem C3_scenarioA_counterexample :
    (addGroup (addGroup emptyMenu
        [MenuItem.command "a", MenuItem.command "b"] (some 50))
        [MenuItem.command "c"] (some 10)).flatItems ≠
      [MenuItem.command "c", MenuItem.separator, MenuItem.command "a",
        MenuItem.command "b"] := by
  decide

/-- Claim C3 (amended): on an empty menu with startIndex 0,
addGroup([a,b],50) followed by addGroup([c],10) yields [c, a, b] with no
separator. -/
theorem C3_scenarioA_amended :
    (addGroup (addGroup emptyMenu
        [MenuItem.command "a", MenuItem.command "b"] (some 50))
        [MenuItem.command "c"] (some 10)).flatItems =
      [MenuItem.command "c", MenuItem.command "a", MenuItem.command "b"] := by
  decide

/-- Claim C4 (counterexample): after addGroup([a,b],50); addGroup([c],10)
the menu holds two nonempty groups, the rank-50 group's items a,b are
preceded by the rank-10 content c, yet the flat list contains no separator
at all — so no separator appears immediately before the rank-50 group's
items. -/
theorem C4_separator_counterexample :
    (addGroup (addGroup emptyMenu
        [MenuItem.command "a", MenuItem.command "b"] (some 50))
        [MenuItem.command "c"] (some 10)).groups =
      [{ items := [MenuItem.command "c"], rank := 10 },
        { items := [MenuItem.command "a", MenuItem.command "b"], rank := 50 }] ∧
    (addGroup (addGroup emptyMenu
        [MenuItem.command "a", MenuItem.command "b"] (some 50))
        [MenuItem.command "c"] (some 10)).flatItems =
      [MenuItem.command "c", MenuItem.command "a", MenuItem.command "b"] ∧
    MenuItem.separator ∉ (addGroup (addGroup emptyMenu
        [MenuItem.command "a", MenuItem.command "b"] (some 50))
        [MenuItem.command "c"] (some 10)).flatItems := by
  decide

/-- Claim C4 (amended): separator placement is a per-call property, not a
global invariant: an addGroup call inserts exactly one separator,
immediately before the group's items, iff the insertion index it computes
is positive; when that index is 0 the group's items are prepended with no
separator — in particular nothing separates them from whatever content
previously led the menu. -/
theorem C4_separator_amended (m : JupyterLabMenu) (items : List MenuItem)
    (rank : Option Int) :
    (0 < addGroupInsertIndex m items rank →
      (addGroup m items rank).flatItems =
        m.flatItems.take (min (addGroupInsertIndex m items rank) m.flatItems.length)
          ++ MenuItem.separator :: items
          ++ m.flatItems.drop (min (addGroupInsertIndex m items rank) m.flatItems.length)) ∧
    (addGroupInsertIndex m items rank = 0 →
      (addGroup m items rank).flatItems = items ++ m.flatItems) := by
  constructor
  · intro h
    rw [addGroup_flatItems, if_pos h]
    simp
  · intro h
    rw [addGroup_flatItems, h]
    simp

/-- Witness for the amended claim C4: a call with positive insertion index
(adding rank 20 after a one-item rank-10 group) puts a separator directly
before the new item, and a call with insertion index 0 (the first group on
an empty menu) prepends without a separator. -/
theorem C4_separator_amended_witness :
    (addGroup (addGroup emptyMenu [MenuItem.command "a"] (some 10))
        [MenuItem.command "b"] (some 20)).flatItems =
      [MenuItem.command "a", MenuItem.separator, MenuItem.command "b"] ∧
    (addGroup emptyMenu [MenuItem.command "a"] (some 10)).flatItems =
      [MenuItem.command "a"] :=
  ⟨(C4_separator_amended (addGroup emptyMenu [MenuItem.command "a"] (some 10))
      [MenuItem.command "b"] (some 20)).1 (by decide),
    (C4_separator_amended emptyMenu [MenuItem.command "a"] (some 10)).2 (by decide)⟩

/-- Claim C5 (counterexample): equal-rank stability fails in the flat item
order: addGroup([a,b,c,d],10) then addGroup([e],10) splices the second
group into the middle of the first, yielding [a,b,c,separator,e,d], where
the first-added group's item d comes after the later-added group's item
e. -/
theorem C5_equal_rank_flat_counterexample :
    (addGroup (addGroup emptyMenu
        [MenuItem.command "a", MenuItem.command "b", MenuItem.command "c",
          MenuItem.command "d"] (some 10))
        [MenuItem.command "e"] (some 10)).flatItems =
      [MenuItem.command "a", MenuItem.command "b", MenuItem.command "c",
        MenuItem.separator, MenuItem.command "e", MenuItem.command "d"] := by
  decide

/-- Claim C5 (amended): equal-rank stability does hold in the internal
group list: on a rank-sorted group list, addGroup inserts the new group at
the upper-bound position, after every group of rank at most the new rank
(in particular after all equal-rank groups) and before only groups of
strictly greater rank, and the group list stays rank sorted.  The
flat-item-order half of the original claim is dropped. -/
theorem C5_equal_rank_stability_amended (m : JupyterLabMenu)
    (items : List MenuItem) (rank : Option Int)
    (hs : List.Sorted (fun a b : RankGroup => a.rank ≤ b.rank) m.groups) :
    (addGroup m items rank).groups =
      m.groups.take (addGroupGroupIndex m items rank)
        ++ { items := items, rank := rank.getD 100 }
        :: m.groups.drop (addGroupGroupIndex m items rank) ∧
    (∀ h ∈ m.groups.take (addGroupGroupIndex m items rank),
      h.rank ≤ rank.getD 100) ∧
    (∀ h ∈ m.groups.drop (addGroupGroupIndex m items rank),
      rank.getD 100 < h.rank) ∧
    List.Sorted (fun a b : RankGroup => a.rank ≤ b.rank)
      (addGroup m items rank).groups :=
  ⟨insertClamped_upperBound_eq m.groups { items := items, rank := rank.getD 100 },
    rank_le_of_mem_take_upperBound m.groups { items := items, rank := rank.getD 100 },
    rank_lt_of_mem_drop_upperBound m.groups { items := items, rank := rank.getD 100 } hs,
    insertClamped_upperBound_sorted m.groups { items := items, rank := rank.getD 100 } hs⟩

/-- Witness for the amended claim C5: on the sorted two-group menu with
ranks 10 and 20, adding an empty group at rank 10 places it at index 1 —
after the existing rank-10 group, before the rank-20 group — and the group
list stays sorted. -/
theorem C5_equal_rank_stability_witness :
    (addGroup twoGroupsMenu [] (some 10)).groups =
      [{ items := [], rank := 10 }, { items := [], rank := 10 },
        { items := [], rank := 20 }] ∧
    List.Sorted (fun a b : RankGroup => a.rank ≤ b.rank)
      (addGroup twoGroupsMenu [] (some 10)).groups :=
  ⟨(C5_equal_rank_stability_amended twoGroupsMenu [] (some 10) (by decide)).1,
    (C5_equal_rank_stability_amended twoGroupsMenu [] (some 10) (by decide)).2.2.2⟩

/-- Claim C9 (code bug): adding a zero-item group is meant to leave the
relative order of the other groups' items unchanged, but it still bumps
the group count and the group index used by the flawed offset loop.
Without the empty group, addGroup([a],50); addGroup([b],30) yields [b,a];
inserting addGroup([],10) between them yields [a, separator, b]: the
relative order of a and b is reversed. -/
theorem C9_empty_group_changes_order_code_bug :
    (addGroup (addGroup emptyMenu [MenuItem.command "a"] (some 50))
        [MenuItem.command "b"] (some 30)).flatItems =
      [MenuItem.command "b", MenuItem.command "a"] ∧
    (addGroup (addGroup (addGroup emptyMenu [MenuItem.command "a"] (some 50))
        [] (some 10)) [MenuItem.command "b"] (some 30)).flatItems =
      [MenuItem.command "a", MenuItem.separator, MenuItem.command "b"] := by
  decide

/-- Claim C10: after the KernelMenu constructor runs, startIndex is still 0
although the three kernel command items were appended, so the first
addGroup call on a fresh KernelMenu computes insertion index 0 and places
its items before the seeded interrupt/restart/change items with no
separator. -/
theorem C10_kernel_menu_startIndex (items : List MenuItem) (rank : Option Int) :
    kernelMenuSeed.startIndex = 0 ∧
    kernelMenuSeed.flatItems =
      [MenuItem.command CommandIDs.interruptKernel,
        MenuItem.command CommandIDs.restartKernel,
        MenuItem.command CommandIDs.changeKernel] ∧
    addGroupInsertIndex kernelMenuSeed items rank = 0 ∧
    (addGroup kernelMenuSeed items rank).flatItems =
      items ++ kernelMenuSeed.flatItems := by
  refine ⟨rfl, rfl, rfl, ?_⟩
  have h0 : addGroupInsertIndex kernelMenuSeed items rank = 0 := rfl
  rw [addGroup_flatItems, h0]
  simp

/-- Claim C6: for any focused widget w, each of the three kernel actions is
enabled iff the first registered user whose tracker owns w exists and
supplies the corresponding delegate, and executing the action when such a
user and delegate exist produces exactly that delegate applied to w. -/
theorem C6_kernel_delegation {W R : Type} (users : List (KernelUser W R)) (w : W) :
    (interruptIsEnabled users (some w) = true ↔
      ∃ u, findUser users (some w) = some u ∧ u.interruptKernel.isSome = true) ∧
    (∀ u f, findUser users (some w) = some u → u.interruptKernel = some f →
      interruptExecute users (some w) = JsOutcome.ok (f w)) ∧
    (restartIsEnabled users (some w) = true ↔
      ∃ u, findUser users (some w) = some u ∧ u.restartKernel.isSome = true) ∧
    (∀ u f, findUser users (some w) = some u → u.restartKernel = some f →
      restartExecute users (some w) = JsOutcome.ok (f w)) ∧
    (changeIsEnabled users (some w) = true ↔
      ∃ u, findUser users (some w) = some u ∧ u.changeKernel.isSome = true) ∧
    (∀ u f, findUser users (some w) = some u → u.changeKernel = some f →
      changeExecute users (some w) = JsOutcome.ok (f w)) := by
  refine ⟨?_, ?_, ?_, ?_, ?_, ?_⟩
  · cases hf : findUser users (some w) with
    | none => simp [interruptIsEnabled, hf]
    | some u => simp [interruptIsEnabled, hf]
  · intro u f hu hf
    simp [interruptExecute, hu, hf]
  · cases hf : findUser users (some w) with
    | none => simp [restartIsEnabled, hf]
    | some u => simp [restartIsEnabled, hf]
  · intro u f hu hf
    simp [restartExecute, hu, hf]
  · cases hf : findUser users (some w) with
    | none => simp [changeIsEnabled, hf]
    | some u => simp [changeIsEnabled, hf]
  · intro u f hu hf
    simp [changeExecute, hu, hf]

/-- Witness for claim C6: with the single all-owning, fully delegating user
registered and widget 5 focused, interrupt executes to 6 (its delegate adds
1), restart to 7, change to 8, and interrupt is enabled. -/
theorem C6_kernel_delegation_witness :
    interruptExecute [fullUser] (some 5) = JsOutcome.ok 6 ∧
    restartExecute [fullUser] (some 5) = JsOutcome.ok 7 ∧
    changeExecute [fullUser] (some 5) = JsOutcome.ok 8 ∧
    interruptIsEnabled [fullUser] (some 5) = true :=
  ⟨(C6_kernel_delegation [fullUser] 5).2.1 fullUser (fun n => n + 1) rfl rfl,
    (C6_kernel_delegation [fullUser] 5).2.2.2.1 fullUser (fun n => n + 2) rfl rfl,
    (C6_kernel_delegation [fullUser] 5).2.2.2.2.2 fullUser (fun n => n + 3) rfl rfl,
    ((C6_kernel_delegation [fullUser] 5).1).mpr ⟨fullUser, rfl, rfl⟩⟩

/-- Claim C7 (counterexample): executing a kernel action with no matching
registered user is not a silent no-op: the generated execute closure
dereferences the result of the user lookup under a non-null assertion, so
with an empty registry (or no focused widget, or a matching user lacking
the delegate) the call raises a TypeError. -/
theorem C7_no_match_counterexample :
    interruptExecute ([] : List (KernelUser Nat Nat)) (some 0) =
      JsOutcome.typeError ∧
    restartExecute ([] : List (KernelUser Nat Nat)) none = JsOutcome.typeError ∧
    changeExecute [noDelegateUser] (some 0) = JsOutcome.typeError :=
  ⟨rfl, rfl, rfl⟩

/-- Claim C7 (amended): invoking the execute function of any of the three
kernel actions when no registered user matches the focused widget
(including when no widget is focused), or when the matching user lacks the
corresponding delegate, raises a TypeError; it is not a no-op. -/
theorem C7_no_match_amended {W R : Type} (users : List (KernelUser W R))
    (focused : Option W) :
    (findUser users focused = none →
      interruptExecute users focused = JsOutcome.typeError ∧
      restartExecute users focused = JsOutcome.typeError ∧
      changeExecute users focused = JsOutcome.typeError) ∧
    (∀ u, findUser users focused = some u →
      (u.interruptKernel = none →
        interruptExecute users focused = JsOutcome.typeError) ∧
      (u.restartKernel = none →
        restartExecute users focused = JsOutcome.typeError) ∧
      (u.changeKernel = none →
        changeExecute users focused = JsOutcome.typeError)) := by
  constructor
  · intro h
    cases focused with
    | none => exact ⟨rfl, rfl, rfl⟩
    | some w =>
      exact ⟨by simp [interruptExecute, h], by simp [restartExecute, h],
        by simp [changeExecute, h]⟩
  · intro u hu
    cases focused with
    | none => simp [findUser] at hu
    | some w =>
      exact ⟨fun h => by simp [interruptExecute, hu, h],
        fun h => by simp [restartExecute, hu, h],
        fun h => by simp [changeExecute, hu, h]⟩

/-- Witness for the amended claim C7: with an empty registry and widget 0
focused, interrupt raises; with the delegate-free user registered, change
raises even though its tracker owns the widget. -/
theorem C7_no_match_amended_witness :
    interruptExecute ([] : List (KernelUser Nat Nat)) (some 0) =
      JsOutcome.typeError ∧
    changeExecute [noDelegateUser] (some 7) = JsOutcome.typeError :=
  ⟨((C7_no_match_amended ([] : List (KernelUser Nat Nat)) (some 0)).1 rfl).1,
    (((C7_no_match_amended [noDelegateUser] (some 7)).2 noDelegateUser rfl).2.2) rfl⟩

/-- Claim C8: every kernel action's enablement predicate is false on an
empty user registry whatever widget is focused, and false for any registry
when no widget is focused. -/
theorem C8_disabled_empty_registry_or_no_focus {W R : Type} :
    (∀ (w : W),
      interruptIsEnabled ([] : List (KernelUser W R)) (some w) = false ∧
      restartIsEnabled ([] : List (KernelUser W R)) (some w) = false ∧
      changeIsEnabled ([] : List (KernelUser W R)) (some w) = false) ∧
    (∀ (users : List (KernelUser W R)),
      interruptIsEnabled users none = false ∧
      restartIsEnabled users none = false ∧
      changeIsEnabled users none = false) :=
  ⟨fun _ => ⟨rfl, rfl, rfl⟩, fun _ => ⟨rfl, rfl, rfl⟩⟩
